import Mathlib

/-!
Verification of the tiny11-automated release detection pipeline
(`scripts/release_detector.py` and `scripts/microsoft_direct_downloader.py`).

The Python code is shallowly embedded: JSON payloads become the inductive
`JVal`, Python dicts become insertion-ordered association lists (matching
CPython's insertion-ordered dict semantics), raising code returns
`Except String`, and ambient time (`datetime.now`, `datetime.fromisoformat`)
is passed in as explicit parameters.  Character-class tests (`\d`, `\w`,
`\s`, `str.lower`, `str.isdigit`) are modelled over ASCII.
-/

/-- JSON values as produced by `json.load` / `response.json()`.  Numbers are
modelled as integers (the payload fields relevant here — `check_count` and the
API build keys — are integral). Object field lists are kept in insertion
order with unique keys, as a parsed Python dict has. -/
inductive JVal where
  | jnull
  | jbool (b : Bool)
  | jnum (n : Int)
  | jstr (s : String)
  | jarr (elems : List JVal)
  | jobj (fields : List (String × JVal))

open JVal

/-- Lookup in an insertion-ordered association list (Python `dict` read). -/
def lookupA {α : Type} : List (String × α) → String → Option α
  | [], _ => none
  | (k, v) :: t, key => if k = key then some v else lookupA t key

/-- Python `dict` write: overwrite in place when the key exists (keeping its
position), append otherwise. -/
def setA {α : Type} : List (String × α) → String → α → List (String × α)
  | [], k, v => [(k, v)]
  | (k', v') :: t, k, v => if k' = k then (k', v) :: t else (k', v') :: setA t k v

/-- Python `obj.get(key)`: `AttributeError` when the receiver is not a dict. -/
def jGet : JVal → String → Except String (Option JVal)
  | jobj fs, k => .ok (lookupA fs k)
  | _, _ => .error "AttributeError"

/-- Python `obj[key]` on a string key: `TypeError` for non-dict receivers,
`KeyError` when the key is absent. -/
def jGetItem : JVal → String → Except String JVal
  | jobj fs, k =>
    match lookupA fs k with
    | some v => .ok v
    | none => .error "KeyError"
  | _, _ => .error "TypeError"

/-- Python `obj[key] = v` on a string key: `TypeError` for non-dict receivers. -/
def jSetItem : JVal → String → JVal → Except String JVal
  | jobj fs, k, v => .ok (jobj (setA fs k v))
  | _, _, _ => .error "TypeError"

/-- Python truthiness of a JSON-shaped value. -/
def jTruthy : JVal → Bool
  | jnull => false
  | jbool b => b
  | jnum n => n != 0
  | jstr s => s != ""
  | jarr l => !l.isEmpty
  | jobj f => !f.isEmpty

/-- Characters stripped by Python `int(...)` around its argument
(space, tab, newline, carriage return, vertical tab, form feed; ASCII model). -/
def pySpaceChar (c : Char) : Bool :=
  c = ' ' || c = '\t' || c = '\n' || c = '\r' || c = '\x0b' || c = '\x0c'

/-- No two consecutive underscores (part of Python's `int()` literal rule). -/
def noDoubleUnderscore : List Char → Bool
  | [] => true
  | [_] => true
  | a :: b :: t => !(a = '_' && b = '_') && noDoubleUnderscore (b :: t)

/-- A valid Python integer-literal body: nonempty digits with optional single
underscores strictly between digits. -/
def pyDigitsOK (l : List Char) : Bool :=
  match l with
  | [] => false
  | c :: _ =>
    c.isDigit &&
    (match l.getLast? with | some d => d.isDigit | none => false) &&
    l.all (fun x => x.isDigit || x = '_') &&
    noDoubleUnderscore l

/-- Numeric value of a digit/underscore body (underscores skipped). -/
def digitsVal (l : List Char) : Nat :=
  l.foldl (fun acc c => if c = '_' then acc else acc * 10 + (c.toNat - '0'.toNat)) 0

/-- Strip leading and trailing whitespace, as `int()` does. -/
def stripPy (l : List Char) : List Char :=
  ((l.dropWhile pySpaceChar).reverse.dropWhile pySpaceChar).reverse

/-- Python `int(s)` on a character list: `none` models a raised `ValueError`. -/
def pyIntL (l : List Char) : Option Int :=
  match stripPy l with
  | '+' :: rest => if pyDigitsOK rest then some (Int.ofNat (digitsVal rest)) else none
  | '-' :: rest => if pyDigitsOK rest then some (-(Int.ofNat (digitsVal rest))) else none
  | rest => if pyDigitsOK rest then some (Int.ofNat (digitsVal rest)) else none

/-- Python `int(s)`: `none` models a raised `ValueError`. -/
def pyInt (s : String) : Option Int :=
  pyIntL s.toList

/-- Python `s.split('.')` (always returns at least one, possibly empty,
segment). -/
def splitOnDot : List Char → List (List Char)
  | [] => [[]]
  | '.' :: t => [] :: splitOnDot t
  | c :: t =>
    match splitOnDot t with
    | [] => [[c]]
    | g :: gs => (c :: g) :: gs

/-- Python `s.isdigit()` (ASCII model). -/
def pyIsDigitStr (s : String) : Bool :=
  !s.isEmpty && s.toList.all Char.isDigit

/-- Python `needle in haystack` on strings (substring containment). -/
def containsSub (n : List Char) : List Char → Bool
  | [] => n.isEmpty
  | c :: t => n.isPrefixOf (c :: t) || containsSub n t

/-- Python `str(x)` for the JSON values this pipeline stores in string-typed
fields; container renderings are abbreviated (never exercised by a claim). -/
def pyStrOf : JVal → String
  | jnull => "None"
  | jbool true => "True"
  | jbool false => "False"
  | jnum n => toString n
  | jstr s => s
  | jarr _ => "<list>"
  | jobj _ => "<dict>"

/-- Python `str(build.get(k))` where a missing key yields `None`. -/
def pyStrOfOpt : Option JVal → String
  | none => "None"
  | some v => pyStrOf v

/-- Python `x == "lit"` between a JSON value and a string literal: true only
for the equal string (cross-type `==` is `False`, never an error). -/
def jvalEqStr (v : JVal) (s : String) : Bool :=
  match v with
  | jstr t => t = s
  | _ => false

/-- Python `key in container` as used on `tracked_data['builds']`:
key membership for dicts, element equality for lists, substring for strings,
`TypeError` otherwise. -/
def pyMem (s : String) : JVal → Except String Bool
  | jobj fs => .ok (fs.any (fun p => p.1 = s))
  | jarr l => .ok (l.any (fun e => jvalEqStr e s))
  | jstr t => .ok (containsSub s.toList t.toList)
  | _ => .error "TypeError"

/-- Monadic map specialised to `Except`, written structurally so that it
unfolds in proofs; mirrors the sequential per-key processing loop. -/
def mapExcept {ε α β : Type} (f : α → Except ε β) : List α → Except ε (List β)
  | [] => .ok []
  | a :: l =>
    match f a with
    | .error e => .error e
    | .ok b =>
      match mapExcept f l with
      | .error e => .error e
      | .ok bs => .ok (b :: bs)

/-- Monadic left fold specialised to `Except`, written structurally. -/
def foldlExcept {ε σ α : Type} (f : σ → α → Except ε σ) : σ → List α → Except ε σ
  | s, [] => .ok s
  | s, a :: l =>
    match f s a with
    | .error e => .error e
    | .ok s' => foldlExcept f s' l

/-- True exactly for `Except.error`. -/
def isError {ε α : Type} : Except ε α → Bool
  | .error _ => true
  | .ok _ => false

/-- Regex word character (ASCII model): letters, digits, underscore. -/
def isWordChar (c : Char) : Bool :=
  c.isAlphanum || c = '_'

/-- Case-insensitive literal prefix match; returns the remaining suffix. -/
def stripCIPrefix : List Char → List Char → Option (List Char)
  | [], rest => some rest
  | _ :: _, [] => none
  | p :: ps, c :: cs => if c.toLower = p.toLower then stripCIPrefix ps cs else none

/-- Try the pattern `version\s+(\d{2}H\d)` (IGNORECASE) anchored at this
position; returns `group(1).upper()` on success. -/
def pat1At (l : List Char) : Option String :=
  match stripCIPrefix "version".toList l with
  | none => none
  | some rest =>
    if (rest.takeWhile pySpaceChar).isEmpty then none
    else
      match rest.dropWhile pySpaceChar with
      | d1 :: d2 :: h :: d3 :: _ =>
        if d1.isDigit && d2.isDigit && (h = 'H' || h = 'h') && d3.isDigit then
          some (String.mk [d1, d2, 'H', d3])
        else none
      | _ => none

/-- Model of `re.search` of `version\s+(\d{2}H\d)` (IGNORECASE): leftmost
match. -/
def scanPat1 : List Char → Option String
  | [] => none
  | c :: t =>
    match pat1At (c :: t) with
    | some v => some v
    | none => scanPat1 t

/-- Try the pattern `\b(\d{2}H\d)\b` (IGNORECASE) anchored at this position,
given the preceding character (`none` at string start); returns
`group(1).upper()`. -/
def pat2At (prev : Option Char) (l : List Char) : Option String :=
  match l with
  | d1 :: d2 :: h :: d3 :: rest =>
    if d1.isDigit && d2.isDigit && (h = 'H' || h = 'h') && d3.isDigit
        && (match prev with | none => true | some p => !isWordChar p)
        && (match rest with | [] => true | r :: _ => !isWordChar r) then
      some (String.mk [d1, d2, 'H', d3])
    else none
  | _ => none

/-- Model of `re.search` of `\b(\d{2}H\d)\b` (IGNORECASE): leftmost match. -/
def scanPat2 (prev : Option Char) : List Char → Option String
  | [] => none
  | c :: t =>
    match pat2At prev (c :: t) with
    | some v => some v
    | none => scanPat2 (some c) t

/-- Try the pattern `\((\d{5})` anchored at this position; returns the
5-digit value. -/
def parenAt : List Char → Option Nat
  | '(' :: d1 :: d2 :: d3 :: d4 :: d5 :: _ =>
    if d1.isDigit && d2.isDigit && d3.isDigit && d4.isDigit && d5.isDigit then
      some ((d1.toNat - '0'.toNat) * 10000 + (d2.toNat - '0'.toNat) * 1000 +
            (d3.toNat - '0'.toNat) * 100 + (d4.toNat - '0'.toNat) * 10 +
            (d5.toNat - '0'.toNat))
    else none
  | _ => none

/-- Model of `re.search` of `\((\d{5})`: leftmost match. -/
def scanParen : List Char → Option Nat
  | [] => none
  | c :: t =>
    match parenAt (c :: t) with
    | some v => some v
    | none => scanParen t

/-- Model of `ReleaseDetector._extract_version`: ordered heuristics — explicit
`version 24H2`-style token, standalone `24H2` token, parenthesized 5-digit
build number mapped through fixed ranges (falling through when no range
matches), then the insider/preview title scan, else `"Unknown"`. -/
def extractVersion (title : String) : String :=
  let cs := title.toList
  match scanPat1 cs with
  | some v => v
  | none =>
    match scanPat2 none cs with
    | some v => v
    | none =>
      let lowered := cs.map Char.toLower
      let insiderFallback :=
        if containsSub "insider".toList lowered || containsSub "preview".toList lowered then
          "Insider-Preview"
        else "Unknown"
      match scanParen cs with
      | some n =>
        if 26200 ≤ n ∧ n < 27000 then "25H2"
        else if 26100 ≤ n ∧ n < 26200 then "24H2"
        else if 26220 ≤ n ∧ n < 27000 then "Insider-26H2"
        else if 28000 ≤ n ∧ n < 29000 then "Insider-28xxx"
        else if 22621 ≤ n ∧ n < 23000 then "22H2"
        else if 22631 ≤ n ∧ n < 23000 then "23H2"
        else insiderFallback
      | none => insiderFallback

/-- Python tuple `<` on integer pairs (lexicographic). -/
def pairLt (p q : Int × Int) : Prop :=
  p.1 < q.1 ∨ (p.1 = q.1 ∧ p.2 < q.2)

instance (p q : Int × Int) : Decidable (pairLt p q) :=
  inferInstanceAs (Decidable (p.1 < q.1 ∨ (p.1 = q.1 ∧ p.2 < q.2)))

/-- Model of `parse_build` inside `ReleaseDetector._compare_builds` on the segments of
the split: `int` the first segment (0 for an empty split list), `int` the
second when present else 0; `none` models a raised `ValueError`. -/
def parseSegs : List (List Char) → Option (Int × Int)
  | [] => some (0, 0)
  | p0 :: rest =>
    match pyIntL p0 with
    | none => none
    | some major =>
      match rest with
      | [] => some (major, 0)
      | p1 :: _ =>
        match pyIntL p1 with
        | none => none
        | some minor => some (major, minor)

/-- Model of `parse_build` applied to a build string: split on `.` then parse. -/
def parseBuild (s : String) : Option (Int × Int) :=
  parseSegs (splitOnDot s.toList)

/-- The comparison step of `_compare_builds` on the parse results: tuple
comparison when both parses succeeded, 0 (the caught-`ValueError` path)
otherwise. -/
def cmpParsed : Option (Int × Int) → Option (Int × Int) → Int
  | some b1, some b2 =>
    if pairLt b2 b1 then 1
    else if pairLt b1 b2 then -1
    else 0
  | _, _ => 0

/-- Model of `ReleaseDetector._compare_builds`: 1 / -1 / 0 by tuple comparison of the
parsed `(major, minor)` pairs; any `ValueError` while parsing either argument
is caught and the comparator returns 0. -/
def compareBuilds (build1 build2 : String) : Int :=
  cmpParsed (parseBuild build1) (parseBuild build2)

/-- The `WindowsRelease` dataclass. -/
structure WindowsRelease where
  build_id : String
  build_number : String
  version : String
  title : String
  iso_url : String
  detected_date : String
  architecture : String
  channel : String := "retail"
  language : String := "en-us"
  checksum_sha256 : Option String := none
  size_bytes : Option Int := none
deriving DecidableEq, Repr

/-- One step of `ReleaseDetector._deduplicate_by_version`'s loop over
`version_map`: first record of a version is inserted; a later record replaces
the incumbent only when its build number compares strictly greater. -/
def dedupStep (m : List (String × WindowsRelease)) (r : WindowsRelease) :
    List (String × WindowsRelease) :=
  match lookupA m r.version with
  | none => m ++ [(r.version, r)]
  | some existing =>
    if 0 < compareBuilds r.build_number existing.build_number then
      setA m r.version r
    else m

/-- Model of `ReleaseDetector._deduplicate_by_version`: keep the greatest build per
version, returning `version_map.values()` in key-insertion order. -/
def deduplicateByVersion (releases : List WindowsRelease) : List WindowsRelease :=
  (releases.foldl dedupStep []).map Prod.snd

/-- Model of `asdict(release)` as stored into the tracking JSON. -/
def releaseToJ (r : WindowsRelease) : JVal :=
  jobj [("build_id", jstr r.build_id), ("build_number", jstr r.build_number),
        ("version", jstr r.version), ("title", jstr r.title),
        ("iso_url", jstr r.iso_url), ("detected_date", jstr r.detected_date),
        ("architecture", jstr r.architecture), ("channel", jstr r.channel),
        ("language", jstr r.language),
        ("checksum_sha256", match r.checksum_sha256 with
                            | some s => jstr s
                            | none => jnull),
        ("size_bytes", match r.size_bytes with
                       | some n => jnum n
                       | none => jnull)]

/-- Sort key used on the API build keys: `int(x) if x.isdigit() else 0`. -/
def keyInt (x : String) : Int :=
  if pyIsDigitStr x then Int.ofNat (digitsVal x.toList) else 0

/-- Stable insertion (descending by `keyInt`, earlier elements before ties). -/
def insertDesc (k : String) : List String → List String
  | [] => [k]
  | h :: t => if keyInt k < keyInt h then h :: insertDesc k t else k :: h :: t

/-- Model of `sorted(keys, key=..., reverse=True)`: stable descending sort. -/
def sortDesc : List String → List String
  | [] => []
  | h :: t => insertDesc h (sortDesc t)

/-- Body of `_check_uupdump`'s per-key loop: fetch the build descriptor,
skip non-dict descriptors, filter for x64 Windows 11 titles, and build a
`WindowsRelease`; a non-string `title` raises `TypeError` at the
`'Windows 11' not in title` test. -/
def processKey (nowIso : String) (bs : List (String × JVal)) (key : String) :
    Except String (Option WindowsRelease) :=
  match lookupA bs key with
  | none => .error "KeyError"
  | some b =>
    match b with
    | jobj bf =>
      match (lookupA bf "title").getD (jstr "") with
      | jstr title =>
        if !containsSub "Windows 11".toList title.toList
            || !jvalEqStr ((lookupA bf "arch").getD (jstr "")) "amd64" then
          .ok none
        else
          let buildId := pyStrOfOpt (lookupA bf "uuid")
          .ok (some
            { build_id := buildId
              build_number :=
                (match lookupA bf "build" with
                 | none => "Unknown"
                 | some v => pyStrOf v)
              version := extractVersion title
              title := title
              iso_url := "https://uupdump.net/download.php?id=" ++ buildId ++
                         "&pack=en-us&edition=professional"
              detected_date := nowIso
              architecture :=
                (match (lookupA bf "arch").getD (jstr "") with
                 | jstr a => a
                 | v => pyStrOf v)
              channel :=
                if containsSub "Insider".toList title.toList then "insider" else "retail" })
      | _ => .error "TypeError"
    | _ => .ok none

/-- The key-sorted, 30-truncated processing loop of `_check_uupdump`. -/
def processBuilds (nowIso : String) (bs : List (String × JVal)) :
    Except String (List WindowsRelease) :=
  match mapExcept (processKey nowIso bs) ((sortDesc (bs.map Prod.fst)).take 30) with
  | .error e => .error e
  | .ok opts => .ok (opts.reduceOption)

/-- Model of `ReleaseDetector._check_uupdump`.  `resp = none` models a network or
JSON-decode failure of the HTTP GET; the nested matches mirror the code's
shape guards, each returning an empty list; any exception from the
processing loop is caught by the blanket `except` and yields `[]`. -/
def checkUupdump (nowIso : String) (resp : Option JVal) : List WindowsRelease :=
  match resp with
  | none => []
  | some data =>
    match data with
    | jobj d =>
      match lookupA d "response" with
      | none => []
      | some respVal =>
        match respVal with
        | jobj rd =>
          match (lookupA rd "builds").getD (jobj []) with
          | jobj bs =>
            match processBuilds nowIso bs with
            | .ok l => l
            | .error _ => []
          | _ => []
        | _ => []
    | _ => []

/-- Shape of the dicts produced by
`MicrosoftPlaywrightDownloader.get_all_versions` (all values are strings by
construction). -/
structure MsftVersionInfo where
  version : String
  title : String
  iso_url : String
  source : String
  detected_date : String
  build_number : String
  build_id : String
  architecture : String
  channel : String
  language : String
deriving DecidableEq, Repr

/-- The `WindowsRelease` built from one `get_all_versions` dict
(`_check_microsoft_direct`, lines 243-253). -/
def msftRelease (v : MsftVersionInfo) : WindowsRelease :=
  { build_id := v.build_id, build_number := v.build_number,
    version := v.version, title := v.title, iso_url := v.iso_url,
    detected_date := v.detected_date, architecture := v.architecture,
    channel := v.channel, language := v.language }

/-- Model of `ReleaseDetector._check_microsoft_direct`: skip versions whose
`build_id` is already in `tracked_data.get('builds', {})`; the blanket
`except` turns any error (including an `AttributeError`/`TypeError` from a
malformed tracking value) into an empty result. -/
def checkMicrosoftDirect (tracked : JVal) (versions : List MsftVersionInfo) :
    List WindowsRelease :=
  match jGet tracked "builds" with
  | .error _ => []
  | .ok lk =>
    let builds := lk.getD (jobj [])
    match foldlExcept (fun acc v =>
        match pyMem v.build_id builds with
        | .error e => .error e
        | .ok true => .ok acc
        | .ok false => .ok (acc ++ [msftRelease v])) [] versions with
    | .ok l => l
    | .error _ => []

/-- The default tracking state (`_load_tracked`'s fallback). -/
def defaultTracked : JVal :=
  jobj [("builds", jobj []), ("last_check", jnull), ("check_count", jnum 0)]

/-- Model of `ReleaseDetector._load_tracked`: `none` = file missing, `some none` =
`json.JSONDecodeError`, `some (some v)` = the parsed JSON value, which is
returned as-is whatever its shape. -/
def loadTracked (file : Option (Option JVal)) : JVal :=
  match file with
  | none => defaultTracked
  | some none => defaultTracked
  | some (some v) => v

/-- Identity dedup `{r.build_id: r for r in all_releases}` as one dict
insertion. -/
def insertById (m : List (String × WindowsRelease)) (r : WindowsRelease) :
    List (String × WindowsRelease) :=
  setA m r.build_id r

/-- Lines 407-408: `self.tracked_data['builds'][release.build_id] =
asdict(release)` for one release. -/
def storeBuild (t : JVal) (p : String × WindowsRelease) : Except String JVal :=
  match jGetItem t "builds" with
  | .error e => .error e
  | .ok b =>
    match jSetItem b p.2.build_id (releaseToJ p.2) with
    | .error e => .error e
    | .ok b' => jSetItem t "builds" b'

/-- Model of `_save_tracked` (minus the file write, reported by the returned flag):
restamp `last_check`, bump `check_count` (via `.get('check_count', 0) + 1`,
where a non-numeric stored count raises `TypeError`). -/
def saveTracked (nowIso : String) (t : JVal) : Except String JVal :=
  match jSetItem t "last_check" (jstr nowIso) with
  | .error e => .error e
  | .ok t2 =>
    match jGet t2 "check_count" with
    | .error e => .error e
    | .ok cc =>
      match cc.getD (jnum 0) with
      | jnum n => jSetItem t2 "check_count" (jnum (n + 1))
      | jbool b => jSetItem t2 "check_count" (jnum ((if b then 1 else 0) + 1))
      | _ => .error "TypeError"

/-- The post-gate body of `detect_new_releases`: poll the two sources
(microsoft_direct first, per the `sources` dict order), identity-dedup by
`build_id`, version-dedup, write every identity-unique release into the
tracking state, save, and return the version-deduplicated list.  The `Bool`
in the result records whether `_save_tracked` persisted the state. -/
def detectBody (nowIso : String) (tracked : JVal)
    (msftVersions : List MsftVersionInfo) (uupResp : Option JVal) :
    Except String (List WindowsRelease × JVal × Bool) :=
  let allReleases := checkMicrosoftDirect tracked msftVersions ++ checkUupdump nowIso uupResp
  let uniqueReleases := allReleases.foldl insertById []
  let versionDeduped := deduplicateByVersion (uniqueReleases.map Prod.snd)
  match foldlExcept storeBuild tracked uniqueReleases with
  | .error e => .error e
  | .ok t1 =>
    match saveTracked nowIso t1 with
    | .error e => .error e
    | .ok t2 => .ok (versionDeduped, t2, true)

/-- Model of `ReleaseDetector.detect_new_releases`.  `fromIso` models
`datetime.fromisoformat` (`none` = `ValueError`), `now` the current time in
seconds, `nowIso` its ISO rendering; timestamps are compared against the
1-hour cooldown (`timedelta(hours=1)` = 3600 s).  With `force` set the
stored `last_check` is never even read (Python short-circuit). -/
def detectNewReleases (fromIso : String → Option Int) (now : Int) (nowIso : String)
    (tracked : JVal) (force : Bool)
    (msftVersions : List MsftVersionInfo) (uupResp : Option JVal) :
    Except String (List WindowsRelease × JVal × Bool) :=
  if force then detectBody nowIso tracked msftVersions uupResp
  else
    match jGet tracked "last_check" with
    | .error e => .error e
    | .ok none => detectBody nowIso tracked msftVersions uupResp
    | .ok (some v) =>
      if jTruthy v then
        match jGetItem tracked "last_check" with
        | .error e => .error e
        | .ok (jstr s) =>
          match fromIso s with
          | none => .error "ValueError"
          | some lastCheck =>
            if now - lastCheck < 3600 then .ok ([], tracked, false)
            else detectBody nowIso tracked msftVersions uupResp
        | .ok _ => .error "TypeError"
      else detectBody nowIso tracked msftVersions uupResp

/-- One entry of the GitHub Actions matrix (`generate_matrix`). -/
structure MatrixEntry where
  version : String
  build : String
  iso_url : String
  build_type : String
  edition : Int
  edition_name : String
  title : String
deriving DecidableEq, Repr

/-- Model of `title.replace(' ', '_').replace('(', '').replace(')', '')`. -/
def sanitizeTitle (t : String) : String :=
  String.mk (((t.toList.map (fun c => if c = ' ' then '_' else c)).filter
    (fun c => c ≠ '(')).filter (fun c => c ≠ ')'))

/-- Model of `ReleaseDetector.generate_matrix`: the `include` list, one entry per
release per build type per edition, in loop order. -/
def generateMatrix (releases : List WindowsRelease) : List MatrixEntry :=
  releases.flatMap (fun r =>
    ["standard", "core", "nano"].flatMap (fun bt =>
      ([1, 6] : List Int).map (fun ed =>
        { version := r.version, build := r.build_number, iso_url := r.iso_url,
          build_type := bt, edition := ed,
          edition_name := if ed = 1 then "Home" else "Pro",
          title := sanitizeTitle r.title })))

/-- The ten-entry `MicrosoftPlaywrightDownloader.USER_AGENTS` catalog. -/
def USER_AGENTS : List String :=
  ["Mozilla/5.0 (Windows NT 10.0; Win64; x64) AppleWebKit/537.36 (KHTML, like Gecko) Chrome/120.0.0.0 Safari/537.36",
   "Mozilla/5.0 (Windows NT 10.0; Win64; x64) AppleWebKit/537.36 (KHTML, like Gecko) Chrome/119.0.0.0 Safari/537.36",
   "Mozilla/5.0 (Windows NT 10.0; Win64; x64; rv:121.0) Gecko/20100101 Firefox/121.0",
   "Mozilla/5.0 (Windows NT 10.0; Win64; x64; rv:120.0) Gecko/20100101 Firefox/120.0",
   "Mozilla/5.0 (Windows NT 10.0; Win64; x64) AppleWebKit/537.36 (KHTML, like Gecko) Chrome/118.0.0.0 Safari/537.36 Edg/118.0.2088.76",
   "Mozilla/5.0 (Windows NT 10.0; Win64; x64) AppleWebKit/537.36 (KHTML, like Gecko) Chrome/117.0.0.0 Safari/537.36",
   "Mozilla/5.0 (Macintosh; Intel Mac OS X 10_15_7) AppleWebKit/537.36 (KHTML, like Gecko) Chrome/120.0.0.0 Safari/537.36",
   "Mozilla/5.0 (Macintosh; Intel Mac OS X 10_15_7) AppleWebKit/605.1.15 (KHTML, like Gecko) Version/17.1 Safari/605.1.15",
   "Mozilla/5.0 (X11; Linux x86_64) AppleWebKit/537.36 (KHTML, like Gecko) Chrome/120.0.0.0 Safari/537.36",
   "Mozilla/5.0 (X11; Ubuntu; Linux x86_64; rv:121.0) Gecko/20100101 Firefox/121.0"]

/-- The class-level rotation state `(_agent_pool, _agent_index)`. -/
structure RotatorState where
  pool : List String
  idx : Nat
deriving DecidableEq, Repr

/-- Model of `MicrosoftPlaywrightDownloader._get_next_user_agent`, iterated `n` times.
`resh k` is the permutation `random.shuffle` produces at the `k`-th pool
exhaustion (`rnd` counts exhaustions so far): return `pool[idx]`, advance the
index, and on exhaustion reshuffle the pool and reset the index to 0. -/
def runRotator (s : RotatorState) (resh : Nat → List String) (rnd : Nat) :
    Nat → List String
  | 0 => []
  | n + 1 =>
    if s.idx + 1 ≥ s.pool.length then
      s.pool.getD s.idx "" :: runRotator ⟨resh rnd, 0⟩ resh (rnd + 1) n
    else
      s.pool.getD s.idx "" :: runRotator ⟨s.pool, s.idx + 1⟩ resh rnd n

/-- Projection of a detection result onto the returned new-release ids. -/
def detectedIds (e : Except String (List WindowsRelease × JVal × Bool)) : List String :=
  match e with
  | .ok (rs, _, _) => rs.map WindowsRelease.build_id
  | .error _ => []

/-- A tracking state whose `builds` map already contains key `"u1"`. -/
def trackedWithU1 : JVal :=
  jobj [("builds", jobj [("u1", jobj [])]), ("last_check", jnull), ("check_count", jnum 0)]

/-- A UUP Dump API response listing the already-tracked build `"u1"`. -/
def uupRespU1 : Option JVal :=
  some (jobj [("response", jobj [("builds", jobj
    [("1", jobj [("uuid", jstr "u1"), ("title", jstr "Windows 11 Pro Build"),
                 ("arch", jstr "amd64"), ("build", jstr "26100.1")])])])])

/-- The shape guard chain of `_check_uupdump`: `some bs` exactly when the
response is a JSON object whose present `response` field is an object whose
`builds` field (defaulted to an empty mapping when absent) is a keyed
mapping; `none` for every other shape, including a list-valued `builds`. -/
def uupBuildsObj (resp : Option JVal) : Option (List (String × JVal)) :=
  match resp with
  | none => none
  | some data =>
    match data with
    | jobj d =>
      match lookupA d "response" with
      | none => none
      | some respVal =>
        match respVal with
        | jobj rd =>
          match (lookupA rd "builds").getD (jobj []) with
          | jobj bs => some bs
          | _ => none
        | _ => none
    | _ => none

/-- A well-formed Windows 11 x64 build descriptor. -/
def uupDescriptor : JVal :=
  jobj [("uuid", jstr "u2"), ("title", jstr "Windows 11 Pro"),
        ("arch", jstr "amd64"), ("build", jstr "26100.2")]

/-- An API response whose `builds` field is a list holding `uupDescriptor`. -/
def uupRespList : Option JVal :=
  some (jobj [("response", jobj [("builds", jarr [uupDescriptor])])])

/-- The same response with `builds` as a keyed mapping instead. -/
def uupRespObj : Option JVal :=
  some (jobj [("response", jobj [("builds", jobj [("1", uupDescriptor)])])])

/-- Modelled from the claim's wording (refinement comparison for the
comparator), on the segments of the split: parse first segment as integer
major, second as integer minor (0 when absent); `none` for a malformed
argument. -/
def claimSegs : List (List Char) → Option (Int × Int)
  | [] => some (0, 0)
  | p0 :: rest =>
    match pyIntL p0 with
    | none => none
    | some major =>
      match (match rest.head? with | none => some 0 | some p1 => pyIntL p1) with
      | none => none
      | some minor => some (major, minor)

/-- Modelled from the claim's wording: the parse applied to a build string. -/
def claimParse (s : String) : Option (Int × Int) :=
  claimSegs (splitOnDot s.toList)

/-- Modelled from the claim's wording: the comparator as the claim states
it — 0 when either argument is malformed, otherwise the lexicographic
comparison of the parsed pairs. -/
def claimCompare (a b : String) : Int :=
  cmpParsed (claimParse a) (claimParse b)

/-- The six entries one release expands to (one per build type × edition). -/
def matrixEntriesFor (r : WindowsRelease) : List MatrixEntry :=
  ["standard", "core", "nano"].flatMap (fun bt =>
    ([1, 6] : List Int).map (fun ed =>
      { version := r.version, build := r.build_number, iso_url := r.iso_url,
        build_type := bt, edition := ed,
        edition_name := if ed = 1 then "Home" else "Pro",
        title := sanitizeTitle r.title }))

/-- A concrete release used by several witnesses. -/
def sampleRelease : WindowsRelease :=
  { build_id := "b1", build_number := "26100.1", version := "24H2",
    title := "Windows 11 24H2 (x64)", iso_url := "https://example.invalid/iso",
    detected_date := "2026-01-01T00:00:00", architecture := "amd64" }

/-- A fresh, well-formed tracking state for the rate-gate witness. -/
def trackedFresh : JVal :=
  jobj [("builds", jobj []), ("last_check", jstr "2026-01-01T00:00:00"),
        ("check_count", jnum 3)]

/-- An eleven-call run of the rotator starting from the unshuffled catalog,
with the round-boundary reshuffle producing the reversed catalog (a genuine
permutation whose head is the agent just returned). -/
def rotatorDemo : List String :=
  runRotator ⟨USER_AGENTS, 0⟩ (fun _ => USER_AGENTS.reverse) 0 11

/-- Invariant of `_deduplicate_by_version`'s loop: after processing the
prefix `pre`, every map entry is keyed by its record's version, keys are
pairwise distinct, every kept record came from `pre` and dominates (under
the comparator) every same-version record of `pre`, and every version seen
in `pre` has a map entry. -/
def DedupInv (pre : List WindowsRelease) (m : List (String × WindowsRelease)) : Prop :=
  (∀ p ∈ m, p.2.version = p.1) ∧
  (m.map Prod.fst).Nodup ∧
  (∀ p ∈ m, p.2 ∈ pre) ∧
  (∀ p ∈ m, ∀ x ∈ pre, x.version = p.1 →
    0 ≤ compareBuilds p.2.build_number x.build_number) ∧
  (∀ x ∈ pre, ∃ p ∈ m, p.1 = x.version)

/-- A second sample release tying with `sampleRelease` under the comparator
(same version, equal build pair). -/
def sampleReleaseTie : WindowsRelease :=
  { sampleRelease with build_id := "b2", build_number := "26100.01" }

/-- Claim C1 (code bug, evaluation at the failing input): the spec says a
candidate whose `build_id` is already a key of `TrackingState.builds` at the
start of the cycle is never re-emitted as new, regardless of source.  The
code only applies that filter in `_check_microsoft_direct`; `_check_uupdump`
and `detect_new_releases` never consult `tracked_data['builds']`, so a
UUP Dump candidate with the already-tracked id `"u1"` is returned as new
again — contradicting the comment at lines 405-406 ("This ensures we don't
re-detect older builds later"). -/
theorem c1_tracked_uupdump_build_reemitted :
    lookupA [("u1", jobj [])] "u1" = some (jobj []) ∧
    jGet trackedWithU1 "builds" = .ok (some (jobj [("u1", jobj [])])) ∧
    detectedIds (detectNewReleases (fun _ => none) 0 "2026-01-01T00:00:00"
      trackedWithU1 false [] uupRespU1) = ["u1"] := by
  refine ⟨rfl, rfl, by decide⟩

/-- Claim C2: for the title `"Windows 11 Insider Preview (OS Build 26220.1)"`
(no `\d{2}H\d` token, and the parenthesis is followed by `"OS"` rather than
five digits, so the `\((\d{5})` fallback finds nothing) the version resolver
falls through the textual patterns and the build-number-range fallback and
returns the insider/preview marker. -/
theorem c2_insider_preview_marker :
    scanPat1 "Windows 11 Insider Preview (OS Build 26220.1)".toList = none ∧
    scanPat2 none "Windows 11 Insider Preview (OS Build 26220.1)".toList = none ∧
    scanParen "Windows 11 Insider Preview (OS Build 26220.1)".toList = none ∧
    extractVersion "Windows 11 Insider Preview (OS Build 26220.1)" = "Insider-Preview" := by
  refine ⟨by decide, by decide, by decide, by decide⟩

/-- Claim C3 (counterexample): the claim says a list-shaped `builds` also
produces candidate records.  The code's `isinstance(builds_data, dict)` guard
rejects lists: the very same valid descriptor yields one candidate when keyed
by a mapping but zero candidates when wrapped in a list. -/
theorem c3_counterexample_list_builds_rejected :
    checkUupdump "2026-01-01T00:00:00" uupRespList = [] ∧
    (checkUupdump "2026-01-01T00:00:00" uupRespObj).length = 1 := by
  refine ⟨by decide, by decide⟩

/-- Claim C3 (amended): the adapter produces candidate records only when the
response's `builds` field is a keyed mapping of build descriptors; for a
list-shaped `builds`, like any other wrong type at any expected level, it
returns an empty candidate list without raising. -/
theorem c3_amended_mapping_only (nowIso : String) (resp : Option JVal)
    (h : uupBuildsObj resp = none) :
    checkUupdump nowIso resp = [] := by
  unfold uupBuildsObj at h
  unfold checkUupdump
  cases resp with
  | none => rfl
  | some data =>
    cases data with
    | jobj d =>
      simp only at h ⊢
      cases hr : lookupA d "response" with
      | none => simp [hr]
      | some respVal =>
        rw [hr] at h
        cases respVal with
        | jobj rd =>
          simp only at h ⊢
          cases hb : (lookupA rd "builds").getD (jobj []) with
          | jobj bs => rw [hb] at h; simp at h
          | jnull => simp [hb]
          | jbool b => simp [hb]
          | jnum n => simp [hb]
          | jstr s => simp [hb]
          | jarr l => simp [hb]
        | jnull => rfl
        | jbool b => rfl
        | jnum n => rfl
        | jstr s => rfl
        | jarr l => rfl
    | jnull => rfl
    | jbool b => rfl
    | jnum n => rfl
    | jstr s => rfl
    | jarr l => rfl

/-- Witness for `c3_amended_mapping_only` at a concrete ill-shaped response. -/
theorem c3_witness :
    uupBuildsObj (some (jstr "oops")) = none ∧
    checkUupdump "2026-01-01T00:00:00" (some (jstr "oops")) = [] :=
  ⟨rfl, c3_amended_mapping_only "2026-01-01T00:00:00" (some (jstr "oops")) rfl⟩

lemma parseSegs_eq_claimSegs (l : List (List Char)) : parseSegs l = claimSegs l := by
  cases l with
  | nil => rfl
  | cons p0 rest =>
    simp only [parseSegs, claimSegs]
    cases hp : pyIntL p0 with
    | none => rfl
    | some major =>
      cases rest with
      | nil => rfl
      | cons p1 t =>
        cases hq : pyIntL p1 with
        | none => rfl
        | some minor => rfl

lemma parseBuild_eq_claimParse (s : String) : parseBuild s = claimParse s :=
  parseSegs_eq_claimSegs (splitOnDot s.toList)

/-- Claim C5: the comparator is total (never raises), always returns one of
-1/0/1, agrees with the claim's parse-and-lexicographically-compare
description (malformed arguments make it return 0), and in particular
`compare("26100.100", "26100.99") == 1`. -/
theorem c5_comparator_contract (a b : String) :
    compareBuilds a b = claimCompare a b ∧
    (compareBuilds a b = -1 ∨ compareBuilds a b = 0 ∨ compareBuilds a b = 1) ∧
    compareBuilds "26100.100" "26100.99" = 1 := by
  refine ⟨?_, ?_, by decide⟩
  · unfold compareBuilds claimCompare
    rw [parseBuild_eq_claimParse, parseBuild_eq_claimParse]
  · unfold compareBuilds
    cases parseBuild a with
    | none => simp [cmpParsed]
    | some pa =>
      cases parseBuild b with
      | none => simp [cmpParsed]
      | some pb =>
        by_cases h1 : pairLt pb pa <;> by_cases h2 : pairLt pa pb <;>
          simp [cmpParsed, h1, h2]

lemma generateMatrix_eq_flatMap (rs : List WindowsRelease) :
    generateMatrix rs = rs.flatMap matrixEntriesFor := rfl

lemma matrixEntriesFor_length (r : WindowsRelease) : (matrixEntriesFor r).length = 6 := rfl

/-- Claim C6: the matrix built from `R` has exactly `6 × |R|` entries; every
entry carries the version, build number and ISO URL of some release of `R`;
and every release contributes an entry for each pair of build type
(`standard`/`core`/`nano`) and edition (`1`/`6`). -/
theorem c6_matrix_size_law (rs : List WindowsRelease) :
    (generateMatrix rs).length = 6 * rs.length ∧
    (∀ e ∈ generateMatrix rs, ∃ r ∈ rs,
      e.version = r.version ∧ e.build = r.build_number ∧ e.iso_url = r.iso_url) ∧
    (∀ r ∈ rs, ∀ bt ∈ (["standard", "core", "nano"] : List String),
      ∀ ed ∈ ([1, 6] : List Int),
      ∃ e ∈ generateMatrix rs, e.version = r.version ∧ e.build = r.build_number ∧
        e.iso_url = r.iso_url ∧ e.build_type = bt ∧ e.edition = ed) := by
  refine ⟨?_, ?_, ?_⟩
  · rw [generateMatrix_eq_flatMap]
    induction rs with
    | nil => rfl
    | cons r t ih =>
      rw [List.flatMap_cons, List.length_append, matrixEntriesFor_length, ih]
      simp [List.length_cons]
      ring
  · intro e he
    rw [generateMatrix_eq_flatMap, List.mem_flatMap] at he
    obtain ⟨r, hr, hre⟩ := he
    refine ⟨r, hr, ?_⟩
    unfold matrixEntriesFor at hre
    rw [List.mem_flatMap] at hre
    obtain ⟨bt, _, hbe⟩ := hre
    rw [List.mem_map] at hbe
    obtain ⟨ed, _, hede⟩ := hbe
    subst hede
    exact ⟨rfl, rfl, rfl⟩
  · intro r hr bt hbt ed hed
    refine ⟨{ version := r.version, build := r.build_number, iso_url := r.iso_url,
              build_type := bt, edition := ed,
              edition_name := if ed = 1 then "Home" else "Pro",
              title := sanitizeTitle r.title }, ?_, rfl, rfl, rfl, rfl, rfl⟩
    rw [generateMatrix_eq_flatMap, List.mem_flatMap]
    refine ⟨r, hr, ?_⟩
    unfold matrixEntriesFor
    rw [List.mem_flatMap]
    refine ⟨bt, hbt, ?_⟩
    rw [List.mem_map]
    exact ⟨ed, hed, rfl⟩

/-- Witness for `c6_matrix_size_law`: instantiated on a one-release list,
discharging the membership hypotheses concretely. -/
theorem c6_witness :
    ∃ e ∈ generateMatrix [sampleRelease], e.version = sampleRelease.version ∧
      e.build = sampleRelease.build_number ∧ e.iso_url = sampleRelease.iso_url ∧
      e.build_type = "core" ∧ e.edition = 6 :=
  (c6_matrix_size_law [sampleRelease]).2.2 sampleRelease (by decide)
    "core" (by decide) 6 (by decide)

/-- Claim C7: with `force` unset and a stored `last_check` timestamp less
than one hour before the current time, `detect_new_releases` returns the
empty list, leaves the tracking state object untouched (same `builds`,
`last_check` and `check_count`), and persists nothing (the returned flag
recording whether `_save_tracked` ran is `false`). -/
theorem c7_rate_gate_frame (fromIso : String → Option Int) (now lastT : Int)
    (nowIso s : String) (flds : List (String × JVal))
    (msft : List MsftVersionInfo) (uup : Option JVal)
    (hlc : lookupA flds "last_check" = some (jstr s))
    (hs : s ≠ "")
    (hiso : fromIso s = some lastT)
    (hfresh : now - lastT < 3600) :
    detectNewReleases fromIso now nowIso (jobj flds) false msft uup =
      .ok ([], jobj flds, false) := by
  unfold detectNewReleases
  simp only [Bool.false_eq_true, if_false, jGet, jGetItem, hlc, jTruthy, hiso]
  simp [hs, hfresh]

/-- Witness for `c7_rate_gate_frame` at a concrete state and clock. -/
theorem c7_witness :
    detectNewReleases (fun _ => some 1000) 1500 "2026-01-01T00:25:00"
      trackedFresh false [] none = .ok ([], trackedFresh, false) :=
  c7_rate_gate_frame (fun _ => some 1000) 1500 1000 "2026-01-01T00:25:00"
    "2026-01-01T00:00:00"
    [("builds", jobj []), ("last_check", jstr "2026-01-01T00:00:00")
     , ("check_count", jnum 3)]
    [] none rfl (by decide) rfl (by decide)

lemma setA_length_le {α : Type} (m : List (String × α)) (k : String) (v : α) :
    m.length ≤ (setA m k v).length := by
  induction m with
  | nil => simp [setA]
  | cons p t ih =>
    obtain ⟨k', v'⟩ := p
    unfold setA
    by_cases h : k' = k <;> simp [h]
    exact ih

lemma foldl_insertById_length_le (l : List WindowsRelease) :
    ∀ m : List (String × WindowsRelease), m.length ≤ (l.foldl insertById m).length := by
  induction l with
  | nil => intro m; simp
  | cons r t ih =>
    intro m
    calc m.length ≤ (insertById m r).length := setA_length_le m r.build_id r
    _ ≤ (t.foldl insertById (insertById m r)).length := ih (insertById m r)

/-- Claim C9: a tracking file holding valid JSON whose top-level value is a
JSON array is returned by `_load_tracked` unchanged (not reset to the empty
default), and strikes an uncaught error (`AttributeError` or `TypeError`,
depending on `force`) inside the next `detect_new_releases` call instead of
completing the cycle. -/
theorem c9_nonobject_tracking_state_raises (xs : List JVal)
    (fromIso : String → Option Int) (now : Int) (nowIso : String)
    (force : Bool) (msft : List MsftVersionInfo) (uup : Option JVal) :
    loadTracked (some (some (jarr xs))) = jarr xs ∧
    jarr xs ≠ defaultTracked ∧
    isError (detectNewReleases fromIso now nowIso (jarr xs) force msft uup) = true := by
  refine ⟨rfl, by simp [defaultTracked], ?_⟩
  cases force with
  | false => rfl
  | true =>
    show isError (detectBody nowIso (jarr xs) msft uup) = true
    unfold detectBody
    have hmsft : checkMicrosoftDirect (jarr xs) msft = [] := rfl
    rw [hmsft]
    cases hu : checkUupdump nowIso uup with
    | nil => rfl
    | cons r l =>
      have hlen : 1 ≤ (([] ++ (r :: l)).foldl insertById []).length := by
        rw [List.nil_append]
        have : (r :: l).foldl insertById [] = l.foldl insertById (insertById [] r) := rfl
        rw [this]
        have h1 : (insertById ([] : List (String × WindowsRelease)) r).length = 1 := rfl
        calc 1 = (insertById ([] : List (String × WindowsRelease)) r).length := h1.symm
        _ ≤ _ := foldl_insertById_length_le l _
      simp only [List.nil_append] at hlen ⊢
      cases hq : (r :: l).foldl insertById [] with
      | nil => rw [hq] at hlen; simp at hlen
      | cons p rest => simp [hq, foldlExcept, storeBuild, jGetItem, isError]

/-- Witness for `c9_nonobject_tracking_state_raises` at a concrete array. -/
theorem c9_witness :
    loadTracked (some (some (jarr [jstr "x"]))) = jarr [jstr "x"] ∧
    jarr [jstr "x"] ≠ defaultTracked ∧
    isError (detectNewReleases (fun _ => none) 0 "t" (jarr [jstr "x"]) true [] none) = true :=
  c9_nonobject_tracking_state_raises [jstr "x"] (fun _ => none) 0 "t" true [] none

lemma mapExcept_ok_length {ε α β : Type} (f : α → Except ε β) :
    ∀ (l : List α) (ys : List β), mapExcept f l = .ok ys → ys.length = l.length := by
  intro l
  induction l with
  | nil => intro ys h; unfold mapExcept at h; cases h; rfl
  | cons a t ih =>
    intro ys h
    unfold mapExcept at h
    cases hf : f a with
    | error e => rw [hf] at h; cases h
    | ok b =>
      rw [hf] at h
      cases hm : mapExcept f t with
      | error e => rw [hm] at h; cases h
      | ok bs =>
        rw [hm] at h
        cases h
        simp [ih bs hm]

lemma processBuilds_length_le (nowIso : String) (bs : List (String × JVal)) :
    ∀ l, processBuilds nowIso bs = .ok l → l.length ≤ 30 := by
  intro l h
  unfold processBuilds at h
  cases hm : mapExcept (processKey nowIso bs) ((sortDesc (bs.map Prod.fst)).take 30) with
  | error e => rw [hm] at h; cases h
  | ok opts =>
    rw [hm] at h
    cases h
    calc opts.reduceOption.length ≤ opts.length := List.reduceOption_length_le opts
    _ = ((sortDesc (bs.map Prod.fst)).take 30).length := mapExcept_ok_length _ _ _ hm
    _ ≤ 30 := by rw [List.length_take]; exact Nat.min_le_left _ _

/-- Claim C10: a single cycle yields at most 30 candidate records from the
UUP Dump adapter, whatever the response: only the 30 keys greatest under the
descending integer sort (non-numeric keys ordered as 0) are examined, and
each key contributes at most one record. -/
theorem c10_at_most_thirty (nowIso : String) (resp : Option JVal) :
    (checkUupdump nowIso resp).length ≤ 30 := by
  unfold checkUupdump
  cases resp with
  | none => simp
  | some data =>
    cases data with
    | jobj d =>
      cases hr : lookupA d "response" with
      | none => simp [hr]
      | some respVal =>
        cases respVal with
        | jobj rd =>
          cases hb : (lookupA rd "builds").getD (jobj []) with
          | jobj bs =>
            cases hp : processBuilds nowIso bs with
            | error e => simp [hr, hb, hp]
            | ok l =>
              have hle := processBuilds_length_le nowIso bs l hp
              simpa [hr, hb, hp] using hle
          | jnull => simp [hr, hb]
          | jbool b => simp [hr, hb]
          | jnum n => simp [hr, hb]
          | jstr s => simp [hr, hb]
          | jarr a => simp [hr, hb]
        | jnull => simp [hr]
        | jbool b => simp [hr]
        | jnum n => simp [hr]
        | jstr s => simp [hr]
        | jarr a => simp [hr]
    | jnull => simp
    | jbool b => simp
    | jnum n => simp
    | jstr s => simp
    | jarr a => simp

lemma getD_ne_getD_succ (pool : List String) (idx : Nat) (d : String)
    (hnd : pool.Nodup) (h : idx + 1 < pool.length) :
    pool.getD idx d ≠ pool.getD (idx + 1) d := by
  induction pool generalizing idx with
  | nil => simp at h
  | cons c t ih =>
    cases idx with
    | zero =>
      have ht : 0 < t.length := by
        simp only [List.length_cons] at h
        omega
      have hmem : t.getD 0 d ∈ t := by
        cases t with
        | nil => simp at ht
        | cons x xs => simp [List.getD_cons_zero]
      have hc : c ∉ t := (List.nodup_cons.mp hnd).1
      rw [List.getD_cons_zero, List.getD_cons_succ]
      intro he
      exact hc (he ▸ hmem)
    | succ i =>
      rw [List.getD_cons_succ, List.getD_cons_succ]
      exact ih i ((List.nodup_cons.mp hnd).2 : t.Nodup)
        (by simp only [List.length_cons] at h; omega)

/-- Claim C8 (counterexample): the claim quantifies over arbitrary reshuffle
permutations, but when the reshuffle at the first round boundary places the
just-used agent first (here: the reversed catalog, a permutation of it), the
10th and 11th calls return the same user-agent string back-to-back. -/
theorem c8_counterexample_backtoback_repeat :
    List.Perm USER_AGENTS.reverse USER_AGENTS ∧
    rotatorDemo.get? 9 =
      some "Mozilla/5.0 (X11; Ubuntu; Linux x86_64; rv:121.0) Gecko/20100101 Firefox/121.0" ∧
    rotatorDemo.get? 10 =
      some "Mozilla/5.0 (X11; Ubuntu; Linux x86_64; rv:121.0) Gecko/20100101 Firefox/121.0" :=
  ⟨List.reverse_perm USER_AGENTS, rfl, rfl⟩

/-- Claim C8 (amended): two consecutive calls that fall inside a single
shuffled round (the first call does not exhaust the pool) never return the
same user-agent string, the pool's entries being pairwise distinct; a repeat
remains possible exactly at a round boundary when the fresh shuffle starts
with the agent just returned. -/
theorem c8_amended_no_repeat_within_round (pool : List String) (idx : Nat)
    (resh : Nat → List String) (rnd : Nat)
    (hnd : pool.Nodup) (h : idx + 1 < pool.length) :
    runRotator ⟨pool, idx⟩ resh rnd 2 = [pool.getD idx "", pool.getD (idx + 1) ""] ∧
    pool.getD idx "" ≠ pool.getD (idx + 1) "" := by
  constructor
  · have hlt : ¬ (idx + 1 ≥ pool.length) := by omega
    simp only [runRotator, hlt, if_false]
    by_cases h2 : idx + 1 + 1 ≥ pool.length <;> simp [runRotator, h2]
  · exact getD_ne_getD_succ pool idx "" hnd h

/-- Witness for `c8_amended_no_repeat_within_round` on the real catalog. -/
theorem c8_witness :
    runRotator ⟨USER_AGENTS, 0⟩ (fun _ => []) 0 2 =
      [USER_AGENTS.getD 0 "", USER_AGENTS.getD 1 ""] ∧
    USER_AGENTS.getD 0 "" ≠ USER_AGENTS.getD 1 "" :=
  c8_amended_no_repeat_within_round USER_AGENTS 0 (fun _ => []) 0
    (by decide) (by decide)

lemma pairLt_irrefl (p : Int × Int) : ¬ pairLt p p := by
  unfold pairLt; omega

lemma pairLt_asymm {p q : Int × Int} (h : pairLt p q) : ¬ pairLt q p := by
  unfold pairLt at *; omega

lemma pairLt_trans {p q r : Int × Int} (h1 : pairLt p q) (h2 : pairLt q r) :
    pairLt p r := by
  unfold pairLt at *; omega

lemma cmpParsed_self (o : Option (Int × Int)) : cmpParsed o o = 0 := by
  cases o with
  | none => rfl
  | some p => simp [cmpParsed, pairLt_irrefl p]

lemma cmpParsed_antisymm (o1 o2 : Option (Int × Int)) :
    cmpParsed o1 o2 = -(cmpParsed o2 o1) := by
  cases o1 with
  | none => cases o2 <;> rfl
  | some pa =>
    cases o2 with
    | none => rfl
    | some pb =>
      by_cases h1 : pairLt pb pa
      · simp [cmpParsed, h1, pairLt_asymm h1]
      · by_cases h2 : pairLt pa pb
        · simp [cmpParsed, h1, h2, pairLt_asymm h2]
        · simp [cmpParsed, h1, h2]

lemma cmpParsed_eq_one_of_pos {o1 o2 : Option (Int × Int)}
    (h : 0 < cmpParsed o1 o2) : cmpParsed o1 o2 = 1 := by
  cases o1 with
  | none => simp [cmpParsed] at h
  | some pa =>
    cases o2 with
    | none => simp [cmpParsed] at h
    | some pb =>
      by_cases h1 : pairLt pb pa
      · simp [cmpParsed, h1]
      · by_cases h2 : pairLt pa pb <;> simp [cmpParsed, h1, h2] at h

lemma compareBuilds_self (a : String) : compareBuilds a a = 0 :=
  cmpParsed_self (parseBuild a)

lemma compareBuilds_antisymm (a b : String) :
    compareBuilds a b = -(compareBuilds b a) :=
  cmpParsed_antisymm (parseBuild a) (parseBuild b)

lemma compareBuilds_eq_one_of_pos {a b : String}
    (h : 0 < compareBuilds a b) : compareBuilds a b = 1 :=
  cmpParsed_eq_one_of_pos h

lemma compareBuilds_nonneg_of_not_pos {a b : String}
    (h : ¬ 0 < compareBuilds a b) : 0 ≤ compareBuilds b a := by
  rw [compareBuilds_antisymm b a]
  omega

lemma cmpParsed_one_par {o1 o2 : Option (Int × Int)} (h : cmpParsed o1 o2 = 1) :
    ∃ pa pb, o1 = some pa ∧ o2 = some pb ∧ pairLt pb pa := by
  cases o1 with
  | none => simp [cmpParsed] at h
  | some pa =>
    cases o2 with
    | none => simp [cmpParsed] at h
    | some pb =>
      refine ⟨pa, pb, rfl, rfl, ?_⟩
      by_contra hn
      by_cases h2 : pairLt pa pb <;> simp [cmpParsed, hn, h2] at h

lemma compareBuilds_trans_nonneg {a b c : String}
    (h1 : compareBuilds a b = 1) (h2 : 0 ≤ compareBuilds b c) :
    0 ≤ compareBuilds a c := by
  unfold compareBuilds at h1 h2 ⊢
  obtain ⟨pa, pb, ha, hb, hba⟩ := cmpParsed_one_par h1
  rw [ha]
  rw [hb] at h2
  cases hc : parseBuild c with
  | none => simp [cmpParsed]
  | some pc =>
    have hcb : ¬ pairLt pb pc := by
      intro hlt
      rw [hc] at h2
      simp [cmpParsed, pairLt_asymm hlt, hlt] at h2
    have hac : ¬ pairLt pa pc := fun hx => hcb (pairLt_trans hba hx)
    by_cases hca : pairLt pc pa
    · simp [cmpParsed, hca]
    · simp [cmpParsed, hca, hac]

lemma lookupA_none_forall {α : Type} {m : List (String × α)} {v : String}
    (h : lookupA m v = none) : ∀ p ∈ m, p.1 ≠ v := by
  induction m with
  | nil => intro p hp; cases hp
  | cons q t ih =>
    obtain ⟨k, x⟩ := q
    unfold lookupA at h
    by_cases hk : k = v
    · rw [if_pos hk] at h; cases h
    · rw [if_neg hk] at h
      intro p hp
      rcases List.mem_cons.mp hp with hp | hp
      · subst hp; exact hk
      · exact ih h p hp

lemma lookupA_some_mem {α : Type} {m : List (String × α)} {v : String} {e : α}
    (h : lookupA m v = some e) : (v, e) ∈ m := by
  induction m with
  | nil => cases h
  | cons q t ih =>
    obtain ⟨k, x⟩ := q
    unfold lookupA at h
    by_cases hk : k = v
    · rw [if_pos hk] at h
      injection h with h
      subst hk; subst h
      exact List.mem_cons_self _ _
    · rw [if_neg hk] at h
      exact List.mem_cons_of_mem _ (ih h)

lemma lookupA_of_mem_nodup {α : Type} {m : List (String × α)}
    (hnd : (m.map Prod.fst).Nodup) {p : String × α} (hp : p ∈ m) :
    lookupA m p.1 = some p.2 := by
  induction m with
  | nil => cases hp
  | cons q t ih =>
    obtain ⟨k, x⟩ := q
    rw [List.map_cons, List.nodup_cons] at hnd
    rcases List.mem_cons.mp hp with hp | hp
    · subst hp; simp [lookupA]
    · have hne : k ≠ p.1 := by
        intro he
        exact hnd.1 (he ▸ List.mem_map.mpr ⟨p, hp, rfl⟩)
      unfold lookupA
      rw [if_neg hne]
      exact ih hnd.2 hp

lemma self_mem_setA {α : Type} (m : List (String × α)) (k : String) (v : α) :
    (k, v) ∈ setA m k v := by
  induction m with
  | nil => simp [setA]
  | cons q t ih =>
    obtain ⟨k', x⟩ := q
    unfold setA
    by_cases h : k' = k
    · rw [if_pos h]; subst h; exact List.mem_cons_self _ _
    · rw [if_neg h]; exact List.mem_cons_of_mem _ ih

lemma mem_setA_cases {α : Type} {m : List (String × α)} {k : String} {v : α}
    (hnd : (m.map Prod.fst).Nodup) {p : String × α} (hp : p ∈ setA m k v) :
    (p ∈ m ∧ p.1 ≠ k) ∨ p = (k, v) := by
  induction m with
  | nil =>
    simp [setA] at hp
    exact Or.inr hp
  | cons q t ih =>
    obtain ⟨k', x⟩ := q
    rw [List.map_cons, List.nodup_cons] at hnd
    unfold setA at hp
    by_cases h : k' = k
    · rw [if_pos h] at hp
      rcases List.mem_cons.mp hp with hp | hp
      · subst h; exact Or.inr hp
      · left
        refine ⟨List.mem_cons_of_mem _ hp, ?_⟩
        intro he
        subst h
        exact hnd.1 (he ▸ List.mem_map.mpr ⟨p, hp, rfl⟩)
    · rw [if_neg h] at hp
      rcases List.mem_cons.mp hp with hp | hp
      · subst hp; exact Or.inl ⟨List.mem_cons_self _ _, h⟩
      · rcases ih hnd.2 hp with ⟨hm, hne⟩ | he
        · exact Or.inl ⟨List.mem_cons_of_mem _ hm, hne⟩
        · exact Or.inr he

lemma mem_setA_of_ne {α : Type} {m : List (String × α)} {k : String} {v : α}
    {p : String × α} (hp : p ∈ m) (hne : p.1 ≠ k) : p ∈ setA m k v := by
  induction m with
  | nil => cases hp
  | cons q t ih =>
    obtain ⟨k', x⟩ := q
    unfold setA
    rcases List.mem_cons.mp hp with hp | hp
    · have hk : k' ≠ k := by rw [hp] at hne; exact hne
      rw [if_neg hk, hp]
      exact List.mem_cons_self _ _
    · by_cases h : k' = k
      · rw [if_pos h]; exact List.mem_cons_of_mem _ hp
      · rw [if_neg h]; exact List.mem_cons_of_mem _ (ih hp)

lemma setA_map_fst {α : Type} {m : List (String × α)} {k : String} {e : α}
    (h : lookupA m k = some e) (v : α) :
    (setA m k v).map Prod.fst = m.map Prod.fst := by
  induction m with
  | nil => cases h
  | cons q t ih =>
    obtain ⟨k', x⟩ := q
    unfold setA
    unfold lookupA at h
    by_cases hk : k' = k
    · rw [if_pos hk]; simp
    · rw [if_neg hk] at h
      rw [if_neg hk]
      simp [ih h]

lemma dedupStep_inv {pre : List WindowsRelease} {m : List (String × WindowsRelease)}
    {r : WindowsRelease} (h : DedupInv pre m) : DedupInv (pre ++ [r]) (dedupStep m r) := by
  obtain ⟨hver, hnd, hmem, hdom, hcov⟩ := h
  unfold dedupStep
  cases hl : lookupA m r.version with
  | none =>
    show DedupInv (pre ++ [r]) (m ++ [(r.version, r)])
    refine ⟨?_, ?_, ?_, ?_, ?_⟩
    · intro p hp
      rcases List.mem_append.mp hp with hp | hp
      · exact hver p hp
      · rw [List.mem_singleton] at hp; subst hp; rfl
    · have hnotin : r.version ∉ m.map Prod.fst := by
        intro hin
        rcases List.mem_map.mp hin with ⟨p, hp, hfst⟩
        exact lookupA_none_forall hl p hp hfst
      rw [List.map_append, List.nodup_append]
      refine ⟨hnd, List.nodup_singleton _, ?_⟩
      intro a ha hb
      simp at hb
      subst hb
      exact hnotin ha
    · intro p hp
      rcases List.mem_append.mp hp with hp | hp
      · exact List.mem_append_left _ (hmem p hp)
      · rw [List.mem_singleton] at hp; subst hp
        exact List.mem_append_right _ (List.mem_singleton.mpr rfl)
    · intro p hp x hx hvx
      rcases List.mem_append.mp hp with hp | hp
      · rcases List.mem_append.mp hx with hx | hx
        · exact hdom p hp x hx hvx
        · rw [List.mem_singleton] at hx
          rw [hx] at hvx
          exact absurd hvx.symm (lookupA_none_forall hl p hp)
      · rw [List.mem_singleton] at hp; subst hp
        rcases List.mem_append.mp hx with hx | hx
        · obtain ⟨q, hq, hqk⟩ := hcov x hx
          have : q.1 = r.version := hqk.trans hvx
          exact absurd this (lookupA_none_forall hl q hq)
        · rw [List.mem_singleton] at hx
          rw [hx, compareBuilds_self]
    · intro x hx
      rcases List.mem_append.mp hx with hx | hx
      · obtain ⟨q, hq, hqk⟩ := hcov x hx
        exact ⟨q, List.mem_append_left _ hq, hqk⟩
      · rw [List.mem_singleton] at hx
        exact ⟨(r.version, r), List.mem_append_right _ (List.mem_singleton.mpr rfl),
          by rw [hx]⟩
  | some existing =>
    show DedupInv (pre ++ [r])
      (if 0 < compareBuilds r.build_number existing.build_number
       then setA m r.version r else m)
    have hEmem : (r.version, existing) ∈ m := lookupA_some_mem hl
    by_cases hc : 0 < compareBuilds r.build_number existing.build_number
    · rw [if_pos hc]
      have hone : compareBuilds r.build_number existing.build_number = 1 :=
        compareBuilds_eq_one_of_pos hc
      refine ⟨?_, ?_, ?_, ?_, ?_⟩
      · intro p hp
        rcases mem_setA_cases hnd hp with ⟨hpm, _⟩ | hpe
        · exact hver p hpm
        · subst hpe; rfl
      · rw [setA_map_fst hl]; exact hnd
      · intro p hp
        rcases mem_setA_cases hnd hp with ⟨hpm, _⟩ | hpe
        · exact List.mem_append_left _ (hmem p hpm)
        · subst hpe
          exact List.mem_append_right _ (List.mem_singleton.mpr rfl)
      · intro p hp x hx hvx
        rcases mem_setA_cases hnd hp with ⟨hpm, hpne⟩ | hpe
        · rcases List.mem_append.mp hx with hx | hx
          · exact hdom p hpm x hx hvx
          · rw [List.mem_singleton] at hx
            rw [hx] at hvx
            exact absurd hvx.symm hpne
        · subst hpe
          rcases List.mem_append.mp hx with hx | hx
          · have hex : 0 ≤ compareBuilds existing.build_number x.build_number :=
              hdom (r.version, existing) hEmem x hx hvx
            exact compareBuilds_trans_nonneg hone hex
          · rw [List.mem_singleton] at hx
            rw [hx, compareBuilds_self]
      · intro x hx
        rcases List.mem_append.mp hx with hx | hx
        · obtain ⟨q, hq, hqk⟩ := hcov x hx
          by_cases hqv : q.1 = r.version
          · exact ⟨(r.version, r), self_mem_setA m r.version r, hqv ▸ hqk⟩
          · exact ⟨q, mem_setA_of_ne hq hqv, hqk⟩
        · rw [List.mem_singleton] at hx
          exact ⟨(r.version, r), self_mem_setA m r.version r, by rw [hx]⟩
    · rw [if_neg hc]
      refine ⟨hver, hnd, ?_, ?_, ?_⟩
      · intro p hp
        exact List.mem_append_left _ (hmem p hp)
      · intro p hp x hx hvx
        rcases List.mem_append.mp hx with hx | hx
        · exact hdom p hp x hx hvx
        · rw [List.mem_singleton] at hx
          rw [hx] at hvx ⊢
          have hpk : lookupA m p.1 = some p.2 := lookupA_of_mem_nodup hnd hp
          rw [← hvx] at hpk
          rw [hl] at hpk
          injection hpk with hpe
          rw [← hpe]
          exact compareBuilds_nonneg_of_not_pos hc
      · intro x hx
        rcases List.mem_append.mp hx with hx | hx
        · exact hcov x hx
        · rw [List.mem_singleton] at hx
          exact ⟨(r.version, existing), hEmem, by rw [hx]⟩

lemma foldl_dedupStep_inv (rs : List WindowsRelease) :
    ∀ (pre : List WindowsRelease) (m : List (String × WindowsRelease)),
      DedupInv pre m → DedupInv (pre ++ rs) (rs.foldl dedupStep m) := by
  induction rs with
  | nil => intro pre m h; simpa using h
  | cons r t ih =>
    intro pre m h
    have h1 := dedupStep_inv (r := r) h
    have h2 := ih (pre ++ [r]) (dedupStep m r) h1
    simpa [List.append_assoc] using h2

lemma dedupInv_nil : DedupInv [] [] := by
  refine ⟨?_, ?_, ?_, ?_, ?_⟩ <;> simp [DedupInv]

/-- Claim C4: the version-deduplicated output has pairwise-distinct
versions; every kept record is one of the inputs and its build number
compares ≥ (under the comparator) every same-version input's build number;
and when the comparator reports a tie between two same-version records the
first-seen one is kept. -/
theorem c4_version_dedup (rs : List WindowsRelease) :
    ((deduplicateByVersion rs).map WindowsRelease.version).Nodup ∧
    (∀ k ∈ deduplicateByVersion rs, k ∈ rs ∧
      ∀ x ∈ rs, x.version = k.version →
        0 ≤ compareBuilds k.build_number x.build_number) ∧
    (∀ x y : WindowsRelease, x.version = y.version →
      compareBuilds y.build_number x.build_number = 0 →
      deduplicateByVersion [x, y] = [x]) := by
  have hinv : DedupInv rs (rs.foldl dedupStep []) := by
    have := foldl_dedupStep_inv rs [] [] dedupInv_nil
    simpa using this
  obtain ⟨hver, hnd, hmem, hdom, _⟩ := hinv
  refine ⟨?_, ?_, ?_⟩
  · unfold deduplicateByVersion
    rw [List.map_map]
    have : ((rs.foldl dedupStep []).map (WindowsRelease.version ∘ Prod.snd)) =
        ((rs.foldl dedupStep []).map Prod.fst) :=
      List.map_congr_left (fun p hp => hver p hp)
    rw [this]
    exact hnd
  · intro k hk
    unfold deduplicateByVersion at hk
    rcases List.mem_map.mp hk with ⟨p, hp, hpk⟩
    subst hpk
    refine ⟨hmem p hp, ?_⟩
    intro x hx hvx
    exact hdom p hp x hx (hvx.trans (hver p hp))
  · intro x y hxy h0
    unfold deduplicateByVersion
    have hstep1 : dedupStep [] x = [(x.version, x)] := rfl
    have hlook : lookupA [(x.version, x)] y.version = some x := by
      unfold lookupA
      rw [if_pos hxy]
    have hstep2 : dedupStep [(x.version, x)] y = [(x.version, x)] := by
      unfold dedupStep
      rw [hlook]
      show (if 0 < compareBuilds y.build_number x.build_number
            then setA [(x.version, x)] y.version y else [(x.version, x)]) =
        [(x.version, x)]
      rw [h0]
      simp
    have hfold : [x, y].foldl dedupStep [] = [(x.version, x)] := by
      show dedupStep (dedupStep [] x) y = [(x.version, x)]
      rw [hstep1, hstep2]
    rw [hfold]
    rfl

/-- Witness for `c4_version_dedup`: the tie-keeps-first-seen clause applied
at two concrete same-version releases whose builds compare equal. -/
theorem c4_witness :
    deduplicateByVersion [sampleRelease, sampleReleaseTie] = [sampleRelease] :=
  (c4_version_dedup []).2.2 sampleRelease sampleReleaseTie rfl (by decide)
